import Mathlib

/-!
Shallow embedding of the generation-transition engine and the simulation
driver of a Game of Life implementation (life.cpp), with theorems that
check the specification's claims about it.

Cells are C++ `int`s, modelled as `Int`.  A `Grid` mirrors the Stanford
`Grid<int>` container: a rectangular `numRows × numCols` array with
bounds-checked access.  The payload is represented as a total function;
every theorem is confined to in-bounds positions, and we prove separately
that the transition engine never reads an out-of-bounds cell.
-/

namespace Life

/-- The `Grid<int>` container: dimensions plus cell contents.  Values of the
`cell` function outside the bounds are phantom; the access discipline of the
code (proved below) never consults them. -/
structure Grid where
  numRows : Nat
  numCols : Nat
  cell : Int → Int → Int

/-- Stanford Grid `inBounds(row, col)`:
`row >= 0 && col >= 0 && row < nRows && col < nCols`. -/
def Grid.inBounds (g : Grid) (row col : Int) : Bool :=
  decide (0 ≤ row) && decide (0 ≤ col) &&
    decide (row < (g.numRows : Int)) && decide (col < (g.numCols : Int))

/-- The assignment `g[row][col] = v` on a `Grid<int>`. -/
def Grid.set (g : Grid) (row col v : Int) : Grid :=
  { g with cell := fun i j => if i = row ∧ j = col then v else g.cell i j }

/-- Stanford Grid `resize(nRows, nCols)`: the old contents are discarded and
every cell of the resized grid holds the default value 0. -/
def Grid.resizeTo (r c : Nat) : Grid :=
  { numRows := r, numCols := c, cell := fun _ _ => 0 }

/-- `isDirectionEmpty(current, row, col, drow, dcol)` from life.cpp:
the centre offset `(0,0)` is reported empty so that it never contributes to
the neighbour count; an offset that lands outside the grid is reported empty
(no neighbour there); otherwise the cell at the offset is read and compared
with 0. -/
def isDirectionEmpty (current : Grid) (row col drow dcol : Int) : Bool :=
  let row2 := row + drow
  let col2 := col + dcol
  if drow == 0 && dcol == 0 then true
  else if current.inBounds row2 col2 then current.cell row2 col2 == 0
  else true

/-- The nine `(drow, dcol)` offsets visited by the nested loops of
`isNumNeighboursCorrect` (`drow` outer, `dcol` inner, each from -1 to 1). -/
def allOffsets : List (Int × Int) :=
  [(-1, -1), (-1, 0), (-1, 1), (0, -1), (0, 0), (0, 1), (1, -1), (1, 0), (1, 1)]

/-- The counter accumulated by `isNumNeighboursCorrect`: over the nine loop
offsets, count those whose direction is not empty. -/
def numNeighbours (current : Grid) (row col : Int) : Nat :=
  allOffsets.countP fun p => !(isDirectionEmpty current row col p.1 p.2)

/-- `isNumNeighboursCorrect(current, row, col, neighbours)` from life.cpp:
count the non-empty directions and compare with the given number. -/
def isNumNeighboursCorrect (current : Grid) (row col neighbours : Int) : Bool :=
  ((numNeighbours current row col : Int) == neighbours)

/-- `isEmpty(current, row, col)` from life.cpp. -/
def isEmpty (current : Grid) (row col : Int) : Bool :=
  current.cell row col == 0

/-- The value that the body of the `computeNext` loop stores into
`next[i][j]`: the if/else chain of life.cpp lines 161-178. -/
def nextCell (current : Grid) (i j : Int) : Int :=
  if isNumNeighboursCorrect current i j 0 || isNumNeighboursCorrect current i j 1 then
    0
  else if isNumNeighboursCorrect current i j 2 then
    if isEmpty current i j then 0 else current.cell i j + 1
  else if isNumNeighboursCorrect current i j 3 then
    if isEmpty current i j then 1 else current.cell i j + 1
  else
    0

/-- One iteration of the `computeNext` loop body: `next[i][j] = …`. -/
def writeCell (current : Grid) (next : Grid) (p : Int × Int) : Grid :=
  next.set p.1 p.2 (nextCell current p.1 p.2)

/-- The row-major order in which the nested loops of `computeNext` visit the
cells: `i` from 0 to `numRows - 1`, and for each `i`, `j` from 0 to
`numCols - 1`. -/
def rowMajor (r c : Nat) : List (Int × Int) :=
  (List.range r).flatMap fun i => (List.range c).map fun j => (Int.ofNat i, Int.ofNat j)

/-- `computeNext(display, current, next)` from life.cpp as a state
transformer on the `(current, next)` pair, parametric in the order in which
the cell loop is executed: `next` is resized to the dimensions of `current`
(zero-filling it) and then every visited cell of `next` is assigned from
`current`; `current` itself is only read. -/
def computeNextImp (current next : Grid) (order : List (Int × Int)) : Grid × Grid :=
  let _ := next
  (current, order.foldl (writeCell current) (Grid.resizeTo current.numRows current.numCols))

/-- The transition engine as a function: the `next` grid produced by
`computeNext` when the loop runs in its row-major source order. -/
def computeNext (current : Grid) : Grid :=
  (rowMajor current.numRows current.numCols).foldl (writeCell current)
    (Grid.resizeTo current.numRows current.numCols)

/- ### Basic lemmas about the write loop -/

lemma Grid.ext_cells {g h : Grid} (hr : g.numRows = h.numRows)
    (hc : g.numCols = h.numCols) (hcell : ∀ i j, g.cell i j = h.cell i j) :
    g = h := by
  cases g
  cases h
  simp only [Grid.mk.injEq]
  exact ⟨hr, hc, funext fun i => funext fun j => hcell i j⟩

lemma foldl_writeCell_numRows (current : Grid) (l : List (Int × Int)) (n : Grid) :
    (l.foldl (writeCell current) n).numRows = n.numRows := by
  induction l generalizing n with
  | nil => rfl
  | cons a l ih => exact ih (writeCell current n a)

lemma foldl_writeCell_numCols (current : Grid) (l : List (Int × Int)) (n : Grid) :
    (l.foldl (writeCell current) n).numCols = n.numCols := by
  induction l generalizing n with
  | nil => rfl
  | cons a l ih => exact ih (writeCell current n a)

lemma foldl_writeCell_cell (current : Grid) (i j : Int) (l : List (Int × Int)) (n : Grid) :
    (l.foldl (writeCell current) n).cell i j =
      if (i, j) ∈ l then nextCell current i j else n.cell i j := by
  induction l generalizing n with
  | nil => simp
  | cons a l ih =>
      rw [List.foldl_cons, ih]
      by_cases hm : (i, j) ∈ l
      · simp [hm]
      · by_cases ha : (i, j) = a
        · obtain ⟨a1, a2⟩ := a
          obtain ⟨h1, h2⟩ := Prod.mk.injEq .. ▸ ha
          subst h1
          subst h2
          simp [hm, writeCell, Grid.set]
        · have hne : ¬(i = a.1 ∧ j = a.2) := by
            intro hand
            exact ha (Prod.ext hand.1 hand.2)
          simp [hm, ha, writeCell, Grid.set, hne]

lemma mem_rowMajor {r c : Nat} {i j : Int} :
    (i, j) ∈ rowMajor r c ↔ 0 ≤ i ∧ i < (r : Int) ∧ 0 ≤ j ∧ j < (c : Int) := by
  constructor
  · intro h
    rw [rowMajor, List.mem_flatMap] at h
    obtain ⟨a, ha, hmem⟩ := h
    rw [List.mem_map] at hmem
    obtain ⟨b, hb, heq⟩ := hmem
    rw [List.mem_range] at ha
    rw [List.mem_range] at hb
    have heq2 : Int.ofNat a = i ∧ Int.ofNat b = j := by
      simpa [Prod.mk.injEq] using heq
    simp only [Int.ofNat_eq_coe] at heq2
    omega
  · rintro ⟨h1, h2, h3, h4⟩
    rw [rowMajor, List.mem_flatMap]
    refine ⟨i.toNat, by rw [List.mem_range]; omega, ?_⟩
    rw [List.mem_map]
    refine ⟨j.toNat, by rw [List.mem_range]; omega, ?_⟩
    rw [Prod.mk.injEq]
    constructor <;> · simp only [Int.ofNat_eq_coe]; omega

lemma computeNext_numRows (g : Grid) : (computeNext g).numRows = g.numRows := by
  rw [computeNext, foldl_writeCell_numRows]
  rfl

lemma computeNext_numCols (g : Grid) : (computeNext g).numCols = g.numCols := by
  rw [computeNext, foldl_writeCell_numCols]
  rfl

lemma inBounds_iff {g : Grid} {i j : Int} :
    g.inBounds i j = true ↔
      0 ≤ i ∧ i < (g.numRows : Int) ∧ 0 ≤ j ∧ j < (g.numCols : Int) := by
  simp only [Grid.inBounds, Bool.and_eq_true, decide_eq_true_eq]
  tauto

lemma computeNext_cell (g : Grid) (i j : Int) :
    (computeNext g).cell i j =
      if g.inBounds i j = true then nextCell g i j else 0 := by
  rw [computeNext, foldl_writeCell_cell]
  by_cases h : g.inBounds i j = true
  · rw [if_pos h, if_pos]
    rw [mem_rowMajor]
    exact ⟨(inBounds_iff.mp h).1, (inBounds_iff.mp h).2.1,
      (inBounds_iff.mp h).2.2.1, (inBounds_iff.mp h).2.2.2⟩
  · rw [if_neg h, if_neg, Grid.resizeTo]
    rw [mem_rowMajor]
    intro hmem
    exact h (inBounds_iff.mpr hmem)

/- ### The neighbour count, reduced to claim-level form -/

/-- The eight neighbour offsets of a cell, as the specification describes
them: the surrounding `(drow, dcol)` pairs with the centre excluded. -/
def neighborOffsets : List (Int × Int) :=
  [(-1, -1), (-1, 0), (-1, 1), (0, -1), (0, 1), (1, -1), (1, 0), (1, 1)]

/-- The count the specification speaks about: the number of the eight
neighbours of `(i, j)` that are inside the grid and alive (value > 0). -/
def aliveNeighborCount (g : Grid) (i j : Int) : Nat :=
  neighborOffsets.countP fun p =>
    g.inBounds (i + p.1) (j + p.2) && decide (0 < g.cell (i + p.1) (j + p.2))

lemma isDirectionEmpty_center (g : Grid) (i j : Int) :
    isDirectionEmpty g i j 0 0 = true := rfl

lemma not_isDirectionEmpty (g : Grid) (i j dr dc : Int) (h : ¬(dr = 0 ∧ dc = 0)) :
    (!isDirectionEmpty g i j dr dc) =
      (g.inBounds (i + dr) (j + dc) && !(g.cell (i + dr) (j + dc) == 0)) := by
  rw [isDirectionEmpty]
  have hcen : (dr == 0 && dc == 0) = false := by
    simp only [Bool.and_eq_false_iff, beq_eq_false_iff_ne, ne_eq]
    tauto
  rw [hcen]
  by_cases hb : g.inBounds (i + dr) (j + dc) = true
  · simp [hb]
  · simp [Bool.not_eq_true] at hb
    simp [hb]

lemma bne_zero_of_nonneg {x : Int} (hx : 0 ≤ x) : (!(x == 0)) = decide (0 < x) := by
  by_cases hz : x = 0
  · subst hz
    simp
  · have hpos : 0 < x := by omega
    simp [hz, hpos]

lemma not_isDirectionEmpty_alive (g : Grid)
    (hnn : ∀ r c, g.inBounds r c = true → 0 ≤ g.cell r c)
    (i j dr dc : Int) (h : ¬(dr = 0 ∧ dc = 0)) :
    (!isDirectionEmpty g i j dr dc) =
      (g.inBounds (i + dr) (j + dc) && decide (0 < g.cell (i + dr) (j + dc))) := by
  rw [not_isDirectionEmpty g i j dr dc h]
  by_cases hb : g.inBounds (i + dr) (j + dc) = true
  · rw [hb, Bool.true_and, Bool.true_and, bne_zero_of_nonneg (hnn _ _ hb)]
  · simp [Bool.not_eq_true] at hb
    simp [hb]

/-- On a grid with non-negative cells, the counter of the code equals the
claim-level alive-neighbour count. -/
lemma numNeighbours_eq_alive (g : Grid)
    (hnn : ∀ r c, g.inBounds r c = true → 0 ≤ g.cell r c) (i j : Int) :
    numNeighbours g i j = aliveNeighborCount g i j := by
  rw [numNeighbours, aliveNeighborCount, allOffsets, neighborOffsets]
  simp only [List.countP_cons, List.countP_nil]
  rw [not_isDirectionEmpty_alive g hnn i j (-1) (-1) (by omega),
    not_isDirectionEmpty_alive g hnn i j (-1) 0 (by omega),
    not_isDirectionEmpty_alive g hnn i j (-1) 1 (by omega),
    not_isDirectionEmpty_alive g hnn i j 0 (-1) (by omega),
    not_isDirectionEmpty_alive g hnn i j 0 1 (by omega),
    not_isDirectionEmpty_alive g hnn i j 1 (-1) (by omega),
    not_isDirectionEmpty_alive g hnn i j 1 0 (by omega),
    not_isDirectionEmpty_alive g hnn i j 1 1 (by omega),
    isDirectionEmpty_center]
  simp

/-- The if/else chain of `computeNext`, restated over the neighbour counter. -/
lemma nextCell_eq_table (g : Grid) (i j : Int) :
    nextCell g i j =
      (if numNeighbours g i j ≤ 1 then 0
       else if numNeighbours g i j = 2 then
         (if g.cell i j = 0 then 0 else g.cell i j + 1)
       else if numNeighbours g i j = 3 then
         (if g.cell i j = 0 then 1 else g.cell i j + 1)
       else 0) := by
  rw [nextCell]
  simp only [isNumNeighboursCorrect, isEmpty, Bool.or_eq_true, beq_iff_eq]
  split_ifs <;> first | rfl | omega

/-- The rule table of the specification (§4.2 / claim C1), on the prior value
of the cell and the number of its alive neighbours. -/
def ruleC1 (v : Int) (n : Nat) : Int :=
  if n ≤ 1 then 0
  else if n = 2 then (if 0 < v then v + 1 else 0)
  else if n = 3 then (if 0 < v then v + 1 else 1)
  else 0

/-- The 1×1 grid holding a single alive cell of age 1. -/
def oneCellGrid : Grid :=
  { numRows := 1, numCols := 1, cell := fun i j => if i = 0 ∧ j = 0 then 1 else 0 }

lemma oneCellGrid_nonneg : ∀ r c : Int,
    oneCellGrid.inBounds r c = true → 0 ≤ oneCellGrid.cell r c := by
  intro r c _
  show 0 ≤ (if r = 0 ∧ c = 0 then (1 : Int) else 0)
  split_ifs <;> omega

/-- Claim C1: for every grid (of non-negative ages, per the data model) and
every in-bounds cell, the value produced by `computeNext` is exactly the rule
table applied to the cell's prior value and its count of alive 8-neighbours,
where alive means value > 0: n ≤ 1 gives 0; n = 2 gives 0 for a dead cell and
age + 1 for an alive one; n = 3 gives 1 for a dead cell and age + 1 for an
alive one; n ≥ 4 gives 0. -/
theorem rule_table_correct (g : Grid)
    (hnn : ∀ r c, g.inBounds r c = true → 0 ≤ g.cell r c)
    (i j : Int) (hin : g.inBounds i j = true) :
    (computeNext g).cell i j = ruleC1 (g.cell i j) (aliveNeighborCount g i j) := by
  rw [computeNext_cell, if_pos hin, nextCell_eq_table, ruleC1,
    ← numNeighbours_eq_alive g hnn i j]
  have hv := hnn i j hin
  split_ifs <;> omega

/-- Witness for C1 at a concrete input: the 1×1 grid with one alive cell. -/
theorem rule_table_correct_witness :
    (∀ r c, oneCellGrid.inBounds r c = true → 0 ≤ oneCellGrid.cell r c) ∧
    oneCellGrid.inBounds 0 0 = true ∧
    (computeNext oneCellGrid).cell 0 0 =
      ruleC1 (oneCellGrid.cell 0 0) (aliveNeighborCount oneCellGrid 0 0) :=
  ⟨oneCellGrid_nonneg, by decide,
    rule_table_correct oneCellGrid oneCellGrid_nonneg 0 0 (by decide)⟩

/-- Claim C5: the grid produced by `computeNext` has exactly the dimensions
of the input grid. -/
theorem computeNext_dims (g : Grid) :
    (computeNext g).numRows = g.numRows ∧ (computeNext g).numCols = g.numCols :=
  ⟨computeNext_numRows g, computeNext_numCols g⟩

/-- Claim C6: on the 1×1 grid holding a single alive cell of age 1,
`computeNext` produces a 1×1 grid whose only cell is dead (0 neighbours). -/
theorem single_cell_dies :
    (computeNext oneCellGrid).numRows = 1 ∧ (computeNext oneCellGrid).numCols = 1 ∧
    (computeNext oneCellGrid).cell 0 0 = 0 := by
  decide

/-- Claim C10: every output cell of `computeNext` is 0, 1, or the input
cell's value plus one, and non-negativity of the input grid is preserved. -/
theorem computeNext_cell_cases (g : Grid) (i j : Int) :
    ((computeNext g).cell i j = 0 ∨ (computeNext g).cell i j = 1 ∨
      (computeNext g).cell i j = g.cell i j + 1) ∧
    ((∀ r c, g.inBounds r c = true → 0 ≤ g.cell r c) →
      0 ≤ (computeNext g).cell i j) := by
  constructor
  · rw [computeNext_cell]
    by_cases hin : g.inBounds i j = true
    · rw [if_pos hin, nextCell_eq_table]
      split_ifs <;> tauto
    · rw [if_neg hin]
      tauto
  · intro hnn
    rw [computeNext_cell]
    by_cases hin : g.inBounds i j = true
    · rw [if_pos hin, nextCell_eq_table]
      have := hnn i j hin
      split_ifs <;> omega
    · rw [if_neg hin]

/-- Witness for C10 at a concrete input. -/
theorem computeNext_cell_cases_witness :
    ((computeNext oneCellGrid).cell 0 0 = 0 ∨ (computeNext oneCellGrid).cell 0 0 = 1 ∨
      (computeNext oneCellGrid).cell 0 0 = oneCellGrid.cell 0 0 + 1) ∧
    0 ≤ (computeNext oneCellGrid).cell 0 0 :=
  ⟨(computeNext_cell_cases oneCellGrid 0 0).1,
   (computeNext_cell_cases oneCellGrid 0 0).2 oneCellGrid_nonneg⟩

/- ### Congruence: the engine reads nothing but in-bounds cells of `current` -/

lemma inBounds_congr {g h : Grid} (hr : g.numRows = h.numRows)
    (hc : g.numCols = h.numCols) (i j : Int) :
    g.inBounds i j = h.inBounds i j := by
  rw [Grid.inBounds, Grid.inBounds, hr, hc]

lemma isDirectionEmpty_congr {g h : Grid} (hr : g.numRows = h.numRows)
    (hc : g.numCols = h.numCols)
    (hcell : ∀ r c, g.inBounds r c = true → g.cell r c = h.cell r c)
    (i j dr dc : Int) :
    isDirectionEmpty g i j dr dc = isDirectionEmpty h i j dr dc := by
  rw [isDirectionEmpty, isDirectionEmpty]
  by_cases hcen : (dr == 0 && dc == 0) = true
  · rw [if_pos hcen, if_pos hcen]
  · rw [if_neg hcen, if_neg hcen, inBounds_congr hr hc (i + dr) (j + dc)]
    by_cases hib : h.inBounds (i + dr) (j + dc) = true
    · rw [if_pos hib, if_pos hib,
        hcell _ _ ((inBounds_congr hr hc (i + dr) (j + dc)).trans hib)]
    · rw [if_neg hib, if_neg hib]

lemma numNeighbours_congr {g h : Grid} (hr : g.numRows = h.numRows)
    (hc : g.numCols = h.numCols)
    (hcell : ∀ r c, g.inBounds r c = true → g.cell r c = h.cell r c)
    (i j : Int) :
    numNeighbours g i j = numNeighbours h i j := by
  rw [numNeighbours, numNeighbours]
  congr 1
  funext p
  rw [isDirectionEmpty_congr hr hc hcell i j p.1 p.2]

lemma nextCell_congr {g h : Grid} (hr : g.numRows = h.numRows)
    (hc : g.numCols = h.numCols)
    (hcell : ∀ r c, g.inBounds r c = true → g.cell r c = h.cell r c)
    (i j : Int) (hin : g.inBounds i j = true) :
    nextCell g i j = nextCell h i j := by
  rw [nextCell, nextCell]
  simp only [isNumNeighboursCorrect, isEmpty]
  rw [numNeighbours_congr hr hc hcell i j]
  simp only [hcell i j hin]

/-- Claim C9: `computeNext` is deterministic — its result depends on nothing
besides the input grid's dimensions and in-bounds contents, so two inputs
that agree there produce equal outputs. -/
theorem computeNext_deterministic (g h : Grid) (hr : g.numRows = h.numRows)
    (hc : g.numCols = h.numCols)
    (hcell : ∀ r c, g.inBounds r c = true → g.cell r c = h.cell r c) :
    computeNext g = computeNext h := by
  apply Grid.ext_cells
  · rw [computeNext_numRows, computeNext_numRows, hr]
  · rw [computeNext_numCols, computeNext_numCols, hc]
  · intro i j
    rw [computeNext_cell, computeNext_cell, inBounds_congr hr hc i j]
    by_cases hib : h.inBounds i j = true
    · rw [if_pos hib, if_pos hib,
        nextCell_congr hr hc hcell i j ((inBounds_congr hr hc i j).trans hib)]
    · rw [if_neg hib, if_neg hib]

/-- A grid with the same dimensions and in-bounds contents as `oneCellGrid`
but different phantom values outside the bounds. -/
def oneCellGridJunk : Grid :=
  { numRows := 1, numCols := 1, cell := fun i j => if i = 0 ∧ j = 0 then 1 else 7 }

lemma oneCellGrid_agree : ∀ r c : Int, oneCellGrid.inBounds r c = true →
    oneCellGrid.cell r c = oneCellGridJunk.cell r c := by
  intro r c hin
  obtain ⟨h1, h2, h3, h4⟩ := inBounds_iff.mp hin
  have hR : oneCellGrid.numRows = 1 := rfl
  have hC : oneCellGrid.numCols = 1 := rfl
  rw [hR] at h2
  rw [hC] at h4
  have hr0 : r = 0 := by omega
  have hc0 : c = 0 := by omega
  subst hr0
  subst hc0
  decide

/-- Witness for C9 at concrete inputs. -/
theorem computeNext_deterministic_witness :
    computeNext oneCellGrid = computeNext oneCellGridJunk :=
  computeNext_deterministic oneCellGrid oneCellGridJunk rfl rfl oneCellGrid_agree

/-- Claim C4: neighbour counting is safe at every position, corners and edges
included — an offset outside the grid is treated as empty (contributes 0),
and neither `isDirectionEmpty` nor the neighbour count reads anything but
in-bounds cells (their results are unchanged under any modification of
out-of-bounds values). -/
theorem neighbor_safety (g h : Grid) (i j dr dc : Int)
    (hr : g.numRows = h.numRows) (hc : g.numCols = h.numCols)
    (hcell : ∀ r c, g.inBounds r c = true → g.cell r c = h.cell r c) :
    (g.inBounds (i + dr) (j + dc) = false → isDirectionEmpty g i j dr dc = true) ∧
    isDirectionEmpty g i j dr dc = isDirectionEmpty h i j dr dc ∧
    numNeighbours g i j = numNeighbours h i j := by
  refine ⟨?_, isDirectionEmpty_congr hr hc hcell i j dr dc,
    numNeighbours_congr hr hc hcell i j⟩
  intro hout
  rw [isDirectionEmpty]
  by_cases hcen : (dr == 0 && dc == 0) = true
  · rw [if_pos hcen]
  · rw [if_neg hcen, if_neg (by rw [hout]; exact Bool.false_ne_true)]

/-- Witness for C4 at a concrete corner cell: on the 1×1 grid, the offset
`(-1, -1)` of cell `(0, 0)` is out of bounds. -/
theorem neighbor_safety_witness :
    oneCellGrid.inBounds (0 + -1) (0 + -1) = false ∧
    isDirectionEmpty oneCellGrid 0 0 (-1) (-1) = true ∧
    isDirectionEmpty oneCellGrid 0 0 (-1) (-1) =
      isDirectionEmpty oneCellGridJunk 0 0 (-1) (-1) ∧
    numNeighbours oneCellGrid 0 0 = numNeighbours oneCellGridJunk 0 0 :=
  ⟨by decide,
   (neighbor_safety oneCellGrid oneCellGridJunk 0 0 (-1) (-1) rfl rfl
      oneCellGrid_agree).1 (by decide),
   (neighbor_safety oneCellGrid oneCellGridJunk 0 0 (-1) (-1) rfl rfl
      oneCellGrid_agree).2.1,
   (neighbor_safety oneCellGrid oneCellGridJunk 0 0 (-1) (-1) rfl rfl
      oneCellGrid_agree).2.2⟩

/-- Claim C3: the loop of `computeNext` writes only into the separate output
grid — the `current` component of the state is returned unchanged — and the
output is invariant to the order in which the cells are visited: any two
visit orders covering the same cells produce the same output grid. -/
theorem computeNextImp_frame_and_order (current next : Grid)
    (order1 order2 : List (Int × Int))
    (hmem : ∀ p, p ∈ order1 ↔ p ∈ order2) :
    (computeNextImp current next order1).1 = current ∧
    (computeNextImp current next order1).2 = (computeNextImp current next order2).2 := by
  constructor
  · rfl
  · apply Grid.ext_cells
    · simp only [computeNextImp]
      rw [foldl_writeCell_numRows, foldl_writeCell_numRows]
    · simp only [computeNextImp]
      rw [foldl_writeCell_numCols, foldl_writeCell_numCols]
    · intro i j
      simp only [computeNextImp]
      rw [foldl_writeCell_cell, foldl_writeCell_cell]
      by_cases hm : (i, j) ∈ order1
      · rw [if_pos hm, if_pos ((hmem (i, j)).mp hm)]
      · rw [if_neg hm, if_neg (fun hmm => hm ((hmem (i, j)).mpr hmm))]

/-- A 1×2 grid with both cells alive, used to exercise two evaluation
orders. -/
def pairGrid : Grid :=
  { numRows := 1, numCols := 2, cell := fun i j => if i = 0 ∧ (j = 0 ∨ j = 1) then 1 else 0 }

/-- Witness for C3: the two cells of a 1×2 grid visited in the two possible
orders. -/
theorem computeNextImp_frame_and_order_witness :
    (computeNextImp pairGrid pairGrid [(0, 0), (0, 1)]).1 = pairGrid ∧
    (computeNextImp pairGrid pairGrid [(0, 0), (0, 1)]).2 =
      (computeNextImp pairGrid pairGrid [(0, 1), (0, 0)]).2 :=
  computeNextImp_frame_and_order pairGrid pairGrid [(0, 0), (0, 1)] [(0, 1), (0, 0)]
    (by
      intro p
      constructor <;>
        · intro hp
          simp only [List.mem_cons, List.not_mem_nil, or_false] at hp ⊢
          tauto)

/- ### The 2×2 block fixtures of §8 / claims C2, C7 -/

/-- Position `(i, j)` lies in the 2×2 block whose top-left corner is
`(r0, c0)`. -/
def isBlock (r0 c0 i j : Int) : Prop :=
  (i = r0 ∨ i = r0 + 1) ∧ (j = c0 ∨ j = c0 + 1)

instance (r0 c0 i j : Int) : Decidable (isBlock r0 c0 i j) :=
  inferInstanceAs (Decidable ((i = r0 ∨ i = r0 + 1) ∧ (j = c0 ∨ j = c0 + 1)))

/-- The grid that is empty except for the 2×2 block at `(r0, c0)`, all four
of whose cells hold age `a`. -/
def blockGridAge (rows cols : Nat) (r0 c0 a : Int) : Grid :=
  { numRows := rows, numCols := cols,
    cell := fun i j => if isBlock r0 c0 i j then a else 0 }

lemma isBlock_inBounds {rows cols : Nat} {r0 c0 a i j : Int}
    (h1 : 1 ≤ r0) (h2 : r0 + 3 ≤ (rows : Int))
    (h3 : 1 ≤ c0) (h4 : c0 + 3 ≤ (cols : Int))
    (hb : isBlock r0 c0 i j) :
    (blockGridAge rows cols r0 c0 a).inBounds i j = true := by
  have hR : (blockGridAge rows cols r0 c0 a).numRows = rows := rfl
  have hC : (blockGridAge rows cols r0 c0 a).numCols = cols := rfl
  rw [inBounds_iff, hR, hC]
  obtain ⟨hi, hj⟩ := hb
  omega

lemma blockGrid_notDirEmpty {rows cols : Nat} {r0 c0 a : Int}
    (h1 : 1 ≤ r0) (h2 : r0 + 3 ≤ (rows : Int))
    (h3 : 1 ≤ c0) (h4 : c0 + 3 ≤ (cols : Int)) (ha : 1 ≤ a)
    (i j dr dc : Int) (hcen : ¬(dr = 0 ∧ dc = 0)) :
    (!isDirectionEmpty (blockGridAge rows cols r0 c0 a) i j dr dc) =
      decide (isBlock r0 c0 (i + dr) (j + dc)) := by
  rw [not_isDirectionEmpty _ i j dr dc hcen]
  by_cases hb : isBlock r0 c0 (i + dr) (j + dc)
  · rw [isBlock_inBounds h1 h2 h3 h4 hb, Bool.true_and]
    have hcell : (blockGridAge rows cols r0 c0 a).cell (i + dr) (j + dc) = a := by
      show (if isBlock r0 c0 (i + dr) (j + dc) then a else 0) = a
      rw [if_pos hb]
    rw [hcell]
    have hz : a ≠ 0 := by omega
    simp [hz, hb]
  · have hcell : (blockGridAge rows cols r0 c0 a).cell (i + dr) (j + dc) = 0 := by
      show (if isBlock r0 c0 (i + dr) (j + dc) then a else 0) = 0
      rw [if_neg hb]
    by_cases hib : (blockGridAge rows cols r0 c0 a).inBounds (i + dr) (j + dc) = true
    · rw [hib, Bool.true_and, hcell]
      simp [hb]
    · rw [Bool.not_eq_true] at hib
      rw [hib, Bool.false_and]
      simp [hb]

lemma ite_and_mul (p q : Prop) [Decidable p] [Decidable q] :
    (if p ∧ q then (1 : Nat) else 0) = (if p then 1 else 0) * (if q then 1 else 0) := by
  by_cases hp : p <;> by_cases hq : q <;> simp [hp, hq]

lemma blockGrid_count_block {rows cols : Nat} {r0 c0 a i j : Int}
    (h1 : 1 ≤ r0) (h2 : r0 + 3 ≤ (rows : Int))
    (h3 : 1 ≤ c0) (h4 : c0 + 3 ≤ (cols : Int)) (ha : 1 ≤ a)
    (hb : isBlock r0 c0 i j) :
    numNeighbours (blockGridAge rows cols r0 c0 a) i j = 3 := by
  rw [numNeighbours, allOffsets]
  simp only [List.countP_cons, List.countP_nil]
  rw [blockGrid_notDirEmpty h1 h2 h3 h4 ha i j (-1) (-1) (by omega),
    blockGrid_notDirEmpty h1 h2 h3 h4 ha i j (-1) 0 (by omega),
    blockGrid_notDirEmpty h1 h2 h3 h4 ha i j (-1) 1 (by omega),
    blockGrid_notDirEmpty h1 h2 h3 h4 ha i j 0 (-1) (by omega),
    blockGrid_notDirEmpty h1 h2 h3 h4 ha i j 0 1 (by omega),
    blockGrid_notDirEmpty h1 h2 h3 h4 ha i j 1 (-1) (by omega),
    blockGrid_notDirEmpty h1 h2 h3 h4 ha i j 1 0 (by omega),
    blockGrid_notDirEmpty h1 h2 h3 h4 ha i j 1 1 (by omega),
    isDirectionEmpty_center]
  simp only [Bool.not_true, Bool.false_eq_true, if_false, decide_eq_true_eq, isBlock,
    ite_and_mul]
  rw [isBlock] at hb
  split_ifs <;> omega

lemma blockGrid_count_le_two {rows cols : Nat} {r0 c0 a i j : Int}
    (h1 : 1 ≤ r0) (h2 : r0 + 3 ≤ (rows : Int))
    (h3 : 1 ≤ c0) (h4 : c0 + 3 ≤ (cols : Int)) (ha : 1 ≤ a)
    (hb : ¬isBlock r0 c0 i j) :
    numNeighbours (blockGridAge rows cols r0 c0 a) i j ≤ 2 := by
  rw [numNeighbours, allOffsets]
  simp only [List.countP_cons, List.countP_nil]
  rw [blockGrid_notDirEmpty h1 h2 h3 h4 ha i j (-1) (-1) (by omega),
    blockGrid_notDirEmpty h1 h2 h3 h4 ha i j (-1) 0 (by omega),
    blockGrid_notDirEmpty h1 h2 h3 h4 ha i j (-1) 1 (by omega),
    blockGrid_notDirEmpty h1 h2 h3 h4 ha i j 0 (-1) (by omega),
    blockGrid_notDirEmpty h1 h2 h3 h4 ha i j 0 1 (by omega),
    blockGrid_notDirEmpty h1 h2 h3 h4 ha i j 1 (-1) (by omega),
    blockGrid_notDirEmpty h1 h2 h3 h4 ha i j 1 0 (by omega),
    blockGrid_notDirEmpty h1 h2 h3 h4 ha i j 1 1 (by omega),
    isDirectionEmpty_center]
  simp only [Bool.not_true, Bool.false_eq_true, if_false, decide_eq_true_eq, isBlock,
    ite_and_mul]
  rw [isBlock] at hb
  split_ifs <;> omega

/-- On a grid interior, the fully-alive 2×2 block of uniform age `a` steps to
the same block of uniform age `a + 1` and nothing else comes alive. -/
lemma computeNext_blockGridAge (rows cols : Nat) (r0 c0 a : Int)
    (h1 : 1 ≤ r0) (h2 : r0 + 3 ≤ (rows : Int))
    (h3 : 1 ≤ c0) (h4 : c0 + 3 ≤ (cols : Int)) (ha : 1 ≤ a) :
    computeNext (blockGridAge rows cols r0 c0 a) =
      blockGridAge rows cols r0 c0 (a + 1) := by
  apply Grid.ext_cells
  · rw [computeNext_numRows]
    rfl
  · rw [computeNext_numCols]
    rfl
  · intro i j
    rw [computeNext_cell]
    by_cases hin : (blockGridAge rows cols r0 c0 a).inBounds i j = true
    · rw [if_pos hin, nextCell_eq_table]
      by_cases hb : isBlock r0 c0 i j
      · rw [blockGrid_count_block h1 h2 h3 h4 ha hb]
        have hcellL : (blockGridAge rows cols r0 c0 a).cell i j = a := by
          show (if isBlock r0 c0 i j then a else 0) = a
          rw [if_pos hb]
        have hcellR : (blockGridAge rows cols r0 c0 (a + 1)).cell i j = a + 1 := by
          show (if isBlock r0 c0 i j then a + 1 else 0) = a + 1
          rw [if_pos hb]
        rw [hcellL, hcellR]
        split_ifs <;> omega
      · have hle := blockGrid_count_le_two h1 h2 h3 h4 ha hb
        have hcellL : (blockGridAge rows cols r0 c0 a).cell i j = 0 := by
          show (if isBlock r0 c0 i j then a else 0) = 0
          rw [if_neg hb]
        have hcellR : (blockGridAge rows cols r0 c0 (a + 1)).cell i j = 0 := by
          show (if isBlock r0 c0 i j then a + 1 else 0) = 0
          rw [if_neg hb]
        rw [hcellL, hcellR]
        split_ifs <;> omega
    · rw [if_neg hin]
      have hnb : ¬isBlock r0 c0 i j := fun hbb =>
        hin (isBlock_inBounds h1 h2 h3 h4 hbb)
      show (0 : Int) = (if isBlock r0 c0 i j then a + 1 else 0)
      rw [if_neg hnb]

/-- Iterating the transition on the age-`a` block gives the block aged by the
number of generations, with no saturation anywhere. -/
lemma iterate_blockGridAge (rows cols : Nat) (r0 c0 : Int)
    (h1 : 1 ≤ r0) (h2 : r0 + 3 ≤ (rows : Int))
    (h3 : 1 ≤ c0) (h4 : c0 + 3 ≤ (cols : Int)) :
    ∀ (k : Nat) (a : Int), 1 ≤ a →
      computeNext^[k] (blockGridAge rows cols r0 c0 a) =
        blockGridAge rows cols r0 c0 (a + k) := by
  intro k
  induction k with
  | zero =>
      intro a ha
      rw [Function.iterate_zero_apply]
      norm_num
  | succ k ih =>
      intro a ha
      rw [Function.iterate_succ_apply,
        computeNext_blockGridAge rows cols r0 c0 a h1 h2 h3 h4 ha,
        ih (a + 1) (by omega)]
      congr 1
      push_cast
      ring

/-- Claim C7: a 2×2 block of alive cells of age 1 placed away from the grid
edges is a still life — `computeNext` reproduces exactly the same occupancy
pattern with every surviving cell's age incremented to 2. -/
theorem block_still_life (rows cols : Nat) (r0 c0 : Int)
    (h1 : 1 ≤ r0) (h2 : r0 + 3 ≤ (rows : Int))
    (h3 : 1 ≤ c0) (h4 : c0 + 3 ≤ (cols : Int)) :
    computeNext (blockGridAge rows cols r0 c0 1) = blockGridAge rows cols r0 c0 2 :=
  computeNext_blockGridAge rows cols r0 c0 1 h1 h2 h3 h4 le_rfl

/-- Witness for C7: the block at `(1, 1)` inside a 4×4 grid. -/
theorem block_still_life_witness :
    computeNext (blockGridAge 4 4 1 1 1) = blockGridAge 4 4 1 1 2 :=
  block_still_life 4 4 1 1 (by norm_num) (by norm_num) (by norm_num) (by norm_num)

/- ### Age saturation (claim C2) -/

/-- Modelled from the spec: the constant `kMaxAge` lives in
life-constants.h, which is not part of the transition-engine source; the
specification fixes no numeric value, only that it is a positive maximum
age, so a representative positive value is used here.  Every statement below
that mentions it holds verbatim for any positive value. -/
def kMaxAge : Int := 12

/-- The 4×4 grid whose 2×2 block at `(1, 1)` holds four alive cells of age
exactly `kMaxAge` (so every cell age is at most `kMaxAge`). -/
def maxAgeBlockGrid : Grid := blockGridAge 4 4 1 1 kMaxAge

/-- Counterexample to claim C2 as stated: this grid has every cell age at
most `kMaxAge`, yet after one `computeNext` step the surviving cell at
`(1, 1)` has age `kMaxAge + 1` — the code increments the age of a surviving
cell without any cap. -/
theorem age_saturation_counterexample :
    (∀ r c, maxAgeBlockGrid.inBounds r c = true → maxAgeBlockGrid.cell r c ≤ kMaxAge) ∧
    kMaxAge < (computeNext maxAgeBlockGrid).cell 1 1 := by
  constructor
  · intro r c _
    show (if isBlock 1 1 r c then kMaxAge else 0) ≤ kMaxAge
    split_ifs
    · exact le_rfl
    · decide
  · have hstep : computeNext maxAgeBlockGrid = blockGridAge 4 4 1 1 (kMaxAge + 1) :=
      computeNext_blockGridAge 4 4 1 1 kMaxAge (by norm_num) (by norm_num)
        (by norm_num) (by norm_num) (by decide)
    rw [hstep]
    show kMaxAge < (if isBlock 1 1 1 1 then kMaxAge + 1 else 0)
    rw [if_pos ⟨Or.inl rfl, Or.inl rfl⟩]
    omega

/-- Claim C2 (amended): ages are not capped at `kMaxAge` — a cell of the
2×2 block that stays alive for `k` consecutive generations has age exactly
`1 + k`, so after `kMaxAge + 5` generations its age strictly exceeds
`kMaxAge`. -/
theorem age_unbounded_growth (rows cols : Nat) (r0 c0 : Int)
    (h1 : 1 ≤ r0) (h2 : r0 + 3 ≤ (rows : Int))
    (h3 : 1 ≤ c0) (h4 : c0 + 3 ≤ (cols : Int)) (k : Nat) :
    (computeNext^[k] (blockGridAge rows cols r0 c0 1)).cell r0 c0 = 1 + (k : Int) ∧
    (kMaxAge + 5 ≤ (k : Int) →
      kMaxAge < (computeNext^[k] (blockGridAge rows cols r0 c0 1)).cell r0 c0) := by
  have hit := iterate_blockGridAge rows cols r0 c0 h1 h2 h3 h4 k 1 le_rfl
  rw [hit]
  have hcell : (blockGridAge rows cols r0 c0 (1 + (k : Int))).cell r0 c0 = 1 + (k : Int) := by
    show (if isBlock r0 c0 r0 c0 then 1 + (k : Int) else 0) = 1 + (k : Int)
    rw [if_pos ⟨Or.inl rfl, Or.inl rfl⟩]
  rw [hcell]
  refine ⟨rfl, fun hk => ?_⟩
  have hm : kMaxAge = 12 := rfl
  omega

/-- Witness for the amended C2: the block at `(1, 1)` in a 4×4 grid, run for
`kMaxAge + 5 = 17` generations, ends with age 18 > `kMaxAge`. -/
theorem age_unbounded_growth_witness :
    (computeNext^[17] (blockGridAge 4 4 1 1 1)).cell 1 1 = 1 + ((17 : Nat) : Int) ∧
    kMaxAge < (computeNext^[17] (blockGridAge 4 4 1 1 1)).cell 1 1 :=
  ⟨(age_unbounded_growth 4 4 1 1 (by norm_num) (by norm_num) (by norm_num)
      (by norm_num) 17).1,
   (age_unbounded_growth 4 4 1 1 (by norm_num) (by norm_num) (by norm_num)
      (by norm_num) 17).2 (by decide)⟩

/- ### The simulation driver loop (claim C8) -/

/-- The events the `runAnimation` loop can receive from `waitForEvent`:
a timer tick (perform one step), a mouse press (cancel), or another mouse
event, which matches neither branch of the loop body and is ignored. -/
inductive LoopEvent
  | timerTick
  | mousePressed
  | mouseOther

/-- `runAnimation` from life.cpp over the stream of events delivered to the
loop, returning the successive generations shown to the observer (one
notification per `advance`, which computes the next generation, makes it the
current one and repaints): a timer event advances and notifies, a mouse
press breaks out of the loop, anything else loops again. -/
def runAnimation (current : Grid) : List LoopEvent → List Grid
  | [] => []
  | LoopEvent.timerTick :: rest =>
      computeNext current :: runAnimation (computeNext current) rest
  | LoopEvent.mousePressed :: _ => []
  | LoopEvent.mouseOther :: rest => runAnimation current rest

/-- Claim C8: once a mouse press is received, the loop stops — the
notifications delivered by `runAnimation` do not depend in any way on the
events that follow the cancellation signal, so no further step occurs after
the one already in flight. -/
theorem cancellation_no_further_steps (g : Grid) (pre post1 post2 : List LoopEvent) :
    runAnimation g (pre ++ LoopEvent.mousePressed :: post1) =
      runAnimation g (pre ++ LoopEvent.mousePressed :: post2) := by
  induction pre generalizing g with
  | nil => rfl
  | cons e pre ih =>
      cases e with
      | timerTick =>
          simp only [List.cons_append, runAnimation]
          exact congrArg (List.cons (computeNext g)) (ih (computeNext g))
      | mousePressed => rfl
      | mouseOther =>
          simp only [List.cons_append, runAnimation]
          exact ih g
